import Mathlib

/-!
Verification of the cricket-data pipeline: a shallow embedding of the
cricinfo ball-by-ball transform (src/transform/cricinfo.py) and of the
pure decision logic of the AUCB crawler (src/scrape/aucb_bbb_scrape.py),
together with theorems settling the frozen claims about them.

Numbers follow the source: Python ints become Nat or Int (signed where the
source can go negative), Python floats over exact inputs become Rat, and
the Python builtin round (banker= half-to-even rounding) is modelled
exactly on Rat.  Only the record fields and environment pieces that the
claims talk about are embedded; text fields of the output record that no
claim mentions (player names, venue, toss, wagon-wheel data) are omitted.
-/

namespace CricketData

/-! ### Python rounding helpers -/

/-- Python builtin round to an integer: round-half-to-even on an exact value. -/
def roundHalfEven (q : ℚ) : ℤ :=
  let f : ℤ := ⌊q⌋
  let r : ℚ := q - (f : ℚ)
  if r < 1/2 then f
  else if (1:ℚ)/2 < r then f + 1
  else if f % 2 = 0 then f else f + 1

/-- Python round(x, 2): round-half-to-even at two decimal places. -/
def roundTo2 (q : ℚ) : ℚ :=
  (roundHalfEven (q * 100) : ℚ) / 100

/-- Python int(x) on a number: truncation toward zero. -/
def truncQ (q : ℚ) : ℤ :=
  if q < 0 then -⌊-q⌋ else ⌊q⌋

/-! ### CricinfoTransformer.validate_date -/

/-- A dateOfBirth object: each component key may be present or null/missing.
The source reads keys date, month, year with .get, treating None as missing. -/
structure DOB where
  date : Option Int
  month : Option Int
  year : Option Int
deriving DecidableEq, Repr

/-- calendar.isleap, as used by calendar.monthrange. -/
def isLeap (y : Int) : Bool :=
  y % 4 == 0 && (y % 100 != 0 || y % 400 == 0)

/-- calendar.monthrange(year, month)[1]: the last day of the month. -/
def monthLastDay (y m : Int) : Int :=
  if m = 2 then (if isLeap y then 29 else 28)
  else if m = 4 ∨ m = 6 ∨ m = 9 ∨ m = 11 then 30
  else 31

/-- Left-pad a decimal string with zeros to width w. -/
def padLeftZeros (w : Nat) (s : String) : String :=
  String.mk (List.replicate (w - s.length) '0') ++ s

/-- Python format spec 0wd on an int (sign counts toward the width). -/
def padInt (w : Nat) (n : Int) : String :=
  if n < 0 then "-" ++ padLeftZeros (w - 1) (toString (-n))
  else padLeftZeros w (toString n)

/-- CricinfoTransformer.validate_date: None for a missing/falsy dob object,
a missing component, or a month outside 1..12; otherwise the day is clamped
into the valid range of the month and the date is formatted YYYY-MM-DD. -/
def validate_date (dob : Option DOB) : Option String :=
  match dob with
  | none => none
  | some d =>
    match d.date, d.month, d.year with
    | some day, some month, some year =>
      if month < 1 ∨ month > 12 then none
      else
        let lastDay := monthLastDay year month
        let day' := if day < 1 then 1 else if day > lastDay then lastDay else day
        some (padInt 4 year ++ "-" ++ padInt 2 month ++ "-" ++ padInt 2 day')
    | _, _, _ => none

/-! ### CricinfoTransformer.determine_outcome and the delivery record -/

/-- One commentary event (a delivery) as read by create_bbb_json.
Keys checked for presence are Option; keys read with .get and a 0/False
default are plain (an absent key behaves as the default).  oversActual is
doubly optional: the outer layer is key presence (checked by the required
key test), the inner layer is a null value (which passes the key test but
makes format_ball_id return None). -/
structure Comment where
  inningNumber : Option Nat
  overNumber : Option Nat
  ballNumber : Option Nat
  batsmanPlayerId : Option Nat
  bowlerPlayerId : Option Nat
  oversActual : Option (Option ℚ)
  totalRuns : Nat
  batsmanRuns : Nat
  legbyes : Nat
  byes : Nat
  wides : Nat
  noballs : Nat
  isWicket : Bool
  dismissalType : Option Nat
  isFour : Bool
  isSix : Bool
deriving DecidableEq, Repr

/-- CricinfoTransformer.determine_outcome, clause for clause. -/
def determine_outcome (c : Comment) : String :=
  if c.isWicket then "wicket"
  else if c.wides > 0 then "wide"
  else if c.noballs > 0 then
    if c.batsmanRuns = 4 then "noball+four"
    else if c.batsmanRuns = 6 then "noball+six"
    else if c.batsmanRuns > 0 then "noball+run"
    else "noball"
  else if c.isFour then "four"
  else if c.isSix then "six"
  else if c.batsmanRuns > 0 ∨ c.legbyes > 0 ∨ c.byes > 0 then
    (if c.totalRuns > 0 then "run" else "no run")
  else "no run"

/-- A delivery is consistent when its total equals the sum of its parts;
every real scoring event satisfies this. -/
def WF (c : Comment) : Prop :=
  c.totalRuns = c.batsmanRuns + c.wides + c.noballs + c.byes + c.legbyes

instance (c : Comment) : Decidable (WF c) := by
  unfold WF; infer_instance

/-! ### Running aggregates of create_bbb_json -/

/-- inning_stats entry: runs, wickets, legal balls of one innings. -/
structure InnStat where
  runs : Nat
  wkts : Nat
  balls : Nat
deriving DecidableEq, Repr

/-- batsman_stats entry: runs scored and balls faced. -/
structure BatStat where
  runs : Nat
  bf : Nat
deriving DecidableEq, Repr

/-- bowler_stats entry: legal balls bowled, runs conceded (signed, the
source subtracts byes and legbyes from the total), credited wickets. -/
structure BowlStat where
  balls : Nat
  runs : Int
  wkts : Nat
deriving DecidableEq, Repr

/-- The three stat dictionaries of create_bbb_json.  A dict defaulting a
fresh key to zeros is modelled as a total function that starts at zeros. -/
structure RState where
  inning : Nat → InnStat
  batsman : Nat × Nat → BatStat
  bowler : Nat × Nat → BowlStat

/-- All dictionaries empty: every key reads as zeros. -/
def initState : RState :=
  { inning := fun _ => ⟨0, 0, 0⟩
    batsman := fun _ => ⟨0, 0⟩
    bowler := fun _ => ⟨0, 0, 0⟩ }

/-- A delivery is legal when it is neither a wide nor a no-ball. -/
def isLegal (c : Comment) : Bool :=
  c.wides == 0 && c.noballs == 0

/-- runs_conceded = totalRuns - byes - legbyes, computed in source as a
Python int so it is signed. -/
def runsConceded (c : Comment) : Int :=
  (c.totalRuns : Int) - (c.byes : Int) - (c.legbyes : Int)

/-- Dismissal-type codes credited to the bowler in the source:
1 caught, 2 bowled, 3 lbw, 5 stumped, 11 hit wicket.  Code 4 is run out. -/
def bowlerCredited (c : Comment) : Bool :=
  c.dismissalType == some 1 || c.dismissalType == some 2 ||
  c.dismissalType == some 3 || c.dismissalType == some 5 ||
  c.dismissalType == some 11

/-- The per-delivery aggregate update of create_bbb_json (lines 503-527):
innings runs always grow by the total; the three ball counters grow only on
a legal delivery; batsman runs grow by the off-bat runs; bowler runs grow
by the conceded runs; a wicket always bumps the innings wickets and bumps
the bowler wickets only for a credited dismissal type. -/
def stepStats (inn batId bowlId : Nat) (c : Comment) (s : RState) : RState :=
  let i0 := s.inning inn
  let b0 := s.batsman (inn, batId)
  let w0 := s.bowler (inn, bowlId)
  let legal : Nat := if isLegal c then 1 else 0
  let i1 : InnStat :=
    { runs := i0.runs + c.totalRuns
      wkts := i0.wkts + (if c.isWicket then 1 else 0)
      balls := i0.balls + legal }
  let b1 : BatStat :=
    { runs := b0.runs + c.batsmanRuns
      bf := b0.bf + legal }
  let w1 : BowlStat :=
    { balls := w0.balls + legal
      runs := w0.runs + runsConceded c
      wkts := w0.wkts + (if c.isWicket && bowlerCredited c then 1 else 0) }
  { inning := Function.update s.inning inn i1
    batsman := Function.update s.batsman (inn, batId) b1
    bowler := Function.update s.bowler (inn, bowlId) w1 }

/-! ### Team resolution (lines 450-476) -/

/-- The per-match lookups the replay consults when resolving teams:
the team id recorded for a player in player_details (none when the player
is unknown or has no team), and the match team ids in insertion order. -/
structure Env where
  playerTeamId : Nat → Option Nat
  teamIds : List Nat

/-- Python truthiness of a team id: None and 0 are falsy. -/
def truthyId : Option Nat → Option Nat
  | some t => if t = 0 then none else some t
  | none => none

/-- One side of the team inference: keep a truthy direct lookup, otherwise
infer from the two match teams by innings number (1 or 2 only). -/
def resolveOne (env : Env) (inn : Nat) (isBat : Bool) (cur : Option Nat) : Option Nat :=
  match truthyId cur with
  | some t => some t
  | none =>
    match env.teamIds with
    | [t1, t2] =>
      if inn = 1 then some (if isBat then t1 else t2)
      else if inn = 2 then some (if isBat then t2 else t1)
      else none
    | _ => none

/-- Resolve both team ids; the delivery is skipped when either side is
still falsy after inference. -/
def resolveTeams (env : Env) (inn batId bowlId : Nat) : Option (Nat × Nat) :=
  match truthyId (resolveOne env inn true (env.playerTeamId batId)),
        truthyId (resolveOne env inn false (env.playerTeamId bowlId)) with
  | some bt, some wt => some (bt, wt)
  | _, _ => none

/-! ### Derived per-record numbers -/

/-- Target = first innings total + 1, when the first innings total is known. -/
def computeTarget (firstInningsRuns : Option Nat) : Option Int :=
  firstInningsRuns.map (fun r => (r : Int) + 1)

/-- max_balls = scheduledOvers * 6 when scheduledOvers is truthy, else 120. -/
def computeMaxBalls (scheduledOvers : Option Nat) : Nat :=
  match scheduledOvers with
  | some o => if o ≠ 0 then o * 6 else 120
  | none => 120

/-- cur_bowl_ovr = completed overs plus balls-of-the-over tenths. -/
def bowlOvr (b : Nat) : ℚ :=
  ((b / 6 : Nat) : ℚ) + ((b % 6 : Nat) : ℚ) / 10

/-- inns_rr: current run rate, absent before the first legal ball. -/
def currentRunRate (runs balls : Nat) : Option ℚ :=
  if balls > 0 then some (roundTo2 ((runs : ℚ) * 6 / (balls : ℚ))) else none

/-- Chase metrics of lines 543-555: remaining runs (a Python float),
remaining balls (a Python int), and the required run rate, all absent
outside a second innings with a known target. -/
def chaseMetrics (inn : Nat) (target : Option Int) (maxBalls : Nat) (runs balls : Nat) :
    Option ℚ × Option Int × Option ℚ :=
  match target with
  | none => (none, none, none)
  | some t =>
    if inn = 2 then
      let runsRem : ℚ := ((t - (runs : Int) : Int) : ℚ)
      let ballsRem : Int := (maxBalls : Int) - (balls : Int)
      let rrr : Option ℚ :=
        if 0 < ballsRem then
          if 0 < runsRem then some (roundTo2 (runsRem / (ballsRem : ℚ) * 6)) else some 0
        else if runsRem ≤ 0 then some 0
        else none
      (some runsRem, some ballsRem, rrr)
    else (none, none, none)

/-- format_ball_id: None for a null oversActual, otherwise a non-empty
formatted string built from the truncated over part and the rounded
fractional part times ten. -/
def formatBallId (oa : Option ℚ) : Option String :=
  match oa with
  | none => none
  | some q =>
    let overPart : Int := truncQ q
    let bpd : Int := roundHalfEven ((q - (overPart : ℚ)) * 10)
    if bpd = 0 ∧ q > 0 then some (toString overPart ++ ".0" ++ toString bpd)
    else if bpd > 0 then some (toString overPart ++ ".0" ++ toString bpd)
    else some (toString overPart ++ ".00")

/-! ### The output record -/

/-- The claim-relevant fields of one output ball record.  Snapshot fields
are taken from the aggregates after applying the delivery. -/
structure Record where
  inns : Nat
  over : Nat
  ball : Nat
  p_bat : Nat
  p_bowl : Nat
  outcome : String
  score : Nat
  out : Bool
  noball : Nat
  wide : Nat
  byes : Nat
  legbyes : Nat
  cur_bat_runs : Nat
  cur_bat_bf : Nat
  cur_bowl_ovr : ℚ
  cur_bowl_wkts : Nat
  cur_bowl_runs : Int
  inns_runs : Nat
  inns_wkts : Nat
  inns_balls : Nat
  inns_runs_rem : Option ℚ
  inns_balls_rem : Option Int
  inns_rr : Option ℚ
  inns_rrr : Option ℚ
  target : Option Int
  max_balls : Nat
  batruns : Nat
  ballfaced : Nat
  bowlruns : Int
deriving DecidableEq, Repr, Inhabited

/-- Build the output record for a processed delivery from the post-event
aggregate state. -/
def mkRecord (t : Option Int) (m : Nat) (inn over ball batId bowlId : Nat)
    (c : Comment) (s' : RState) : Record :=
  let istat := s'.inning inn
  let bstat := s'.batsman (inn, batId)
  let wstat := s'.bowler (inn, bowlId)
  let cm := chaseMetrics inn t m istat.runs istat.balls
  { inns := inn
    over := over
    ball := ball
    p_bat := batId
    p_bowl := bowlId
    outcome := determine_outcome c
    score := c.totalRuns
    out := c.isWicket
    noball := c.noballs
    wide := c.wides
    byes := c.byes
    legbyes := c.legbyes
    cur_bat_runs := bstat.runs
    cur_bat_bf := bstat.bf
    cur_bowl_ovr := bowlOvr wstat.balls
    cur_bowl_wkts := wstat.wkts
    cur_bowl_runs := wstat.runs
    inns_runs := istat.runs
    inns_wkts := istat.wkts
    inns_balls := istat.balls
    inns_runs_rem := cm.1
    inns_balls_rem := cm.2.1
    inns_rr := currentRunRate istat.runs istat.balls
    inns_rrr := cm.2.2
    target := t
    max_balls := m
    batruns := c.batsmanRuns
    ballfaced := if isLegal c then 1 else 0
    bowlruns := runsConceded c }

/-! ### The replay loop -/

/-- The required-key check of line 435 plus the falsy-value collapse for
the player ids: all six keys must be present (a present-but-null player id
is folded into none here because both cases skip before any mutation). -/
def requiredFields (c : Comment) :
    Option (Nat × Nat × Nat × Nat × Nat × Option ℚ) :=
  match c.inningNumber, c.overNumber, c.ballNumber,
        c.batsmanPlayerId, c.bowlerPlayerId, c.oversActual with
  | some a, some b, some d, some e, some f, some g => some (a, b, d, e, f, g)
  | _, _, _, _, _, _ => none

/-- Process one comment: the guard chain of the loop body.  Skips for a
missing required key, a falsy player id, or unresolvable teams happen
before the aggregate update; the ball-id skip of line 531 happens after
it, so that path mutates the aggregates yet emits nothing.  The ball-id
gate tests only whether oversActual is null, because format_ball_id
returns a non-empty string on every other input (theorem
formatBallId_eq_none_iff below). -/
def processComment (env : Env) (t : Option Int) (m : Nat) (s : RState) (c : Comment) :
    RState × Option Record :=
  match requiredFields c with
  | none => (s, none)
  | some (inn, over, ball, batId, bowlId, oa) =>
    if batId = 0 ∨ bowlId = 0 then (s, none)
    else
      match resolveTeams env inn batId bowlId with
      | none => (s, none)
      | some _ =>
        let s' := stepStats inn batId bowlId c s
        match oa with
        | none => (s', none)
        | some _ => (s', some (mkRecord t m inn over ball batId bowlId c s'))

/-- Replay a list of comments in order, threading the aggregate state and
collecting the emitted records. -/
def replay (env : Env) (t : Option Int) (m : Nat) :
    RState → List Comment → RState × List Record
  | s, [] => (s, [])
  | s, c :: cs =>
    let p := processComment env t m s c
    let rest := replay env t m p.1 cs
    (rest.1, match p.2 with
             | none => rest.2
             | some r => r :: rest.2)

/-! ### Sorting (line 296-297) -/

/-- The sort key: (inningNumber, overNumber, ballNumber) with .get defaults 0. -/
def sortKey (c : Comment) : Nat × Nat × Nat :=
  (c.inningNumber.getD 0, c.overNumber.getD 0, c.ballNumber.getD 0)

/-- Lexicographic order on the sort-key triple, as Python compares tuples. -/
def keyLE (a b : Nat × Nat × Nat) : Prop :=
  a.1 < b.1 ∨ (a.1 = b.1 ∧ (a.2.1 < b.2.1 ∨ (a.2.1 = b.2.1 ∧ a.2.2 ≤ b.2.2)))

/-- Strict lexicographic order on key triples. -/
def keyLT (a b : Nat × Nat × Nat) : Prop :=
  keyLE a b ∧ a ≠ b

instance : DecidableRel keyLE := by
  unfold keyLE; infer_instance

instance : DecidableRel keyLT := by
  unfold keyLT; infer_instance

/-- Comment comparison used by the chronological sort. -/
def commentLE (c c' : Comment) : Prop :=
  keyLE (sortKey c) (sortKey c')

instance : DecidableRel commentLE := by
  unfold commentLE; infer_instance

instance : IsTotal (Nat × Nat × Nat) keyLE :=
  ⟨by intro a b; unfold keyLE; omega⟩

instance : IsTrans (Nat × Nat × Nat) keyLE :=
  ⟨by intro a b c; unfold keyLE; omega⟩

instance : IsTotal Comment commentLE :=
  ⟨fun a b => IsTotal.total (r := keyLE) (sortKey a) (sortKey b)⟩

instance : IsTrans Comment commentLE :=
  ⟨fun _ _ _ h h' => IsTrans.trans (r := keyLE) _ _ _ h h'⟩

/-- comments.sort with a tuple key: a stable sort by the key triple. -/
def sortComments (comments : List Comment) : List Comment :=
  List.insertionSort commentLE comments

/-- CricinfoTransformer.create_bbb_json restricted to its claim-relevant
inputs: the team environment, the first innings total when known, the
scheduled overs, and the flattened comment list. -/
def create_bbb_json (env : Env) (firstInningsRuns : Option Nat)
    (scheduledOvers : Option Nat) (comments : List Comment) : List Record :=
  (replay env (computeTarget firstInningsRuns) (computeMaxBalls scheduledOvers)
    initState (sortComments comments)).2

/-- The ordering key of an output record. -/
def recKey (r : Record) : Nat × Nat × Nat :=
  (r.inns, r.over, r.ball)

/-! ### CricketScraper.fetch_url (response classification) -/

/-- One generated work item (url, fixture id, document kind). -/
structure UrlInfo where
  url : String
  fixture_id : Nat
  type' : String
deriving DecidableEq, Repr

/-- The observable part of an HTTP response: status code and, when the
body decodes as a JSON object, its top-level keys (none = decode failure). -/
structure FetchResponse where
  status : Nat
  body : Option (List String)
deriving DecidableEq, Repr

/-- The kept payload returned by fetch_url. -/
structure FetchResult where
  fixture_id : Nat
  type' : String
  data : List String
deriving DecidableEq, Repr

/-- CricketScraper.fetch_url classification (lines 330-350): drop on a
non-200 status; drop on a JSON decode failure; drop when the payload is
truthy with at most one top-level key; otherwise keep the payload with its
fixture id and kind.  Note the Python guard data and len(data) <= 1 lets
an empty (falsy) payload through. -/
def fetch_url (info : UrlInfo) (resp : FetchResponse) : Option FetchResult :=
  if resp.status ≠ 200 then none
  else
    match resp.body with
    | none => none
    | some keys =>
      if keys ≠ [] ∧ keys.length ≤ 1 then none
      else some ⟨info.fixture_id, info.type', keys⟩

/-! ### CricketScraper.generate_urls (work generation) -/

/-- The scorecard url template with the fixture id substituted. -/
def scorecardUrl (id : Nat) : String :=
  "https://apiv2.cricket.com.au/web/views/scorecard?fixtureId=" ++ toString id ++
  "&jsconfig=eccn%3Atrue&format=json"

/-- The comments url template with fixture id and innings number substituted. -/
def commentsUrl (id inn : Nat) : String :=
  "https://apiv2.cricket.com.au/web/views/comments?fixtureId=" ++ toString id ++
  "&inningNumber=" ++ toString inn ++
  "&commentType=&overLimit=499&jsconfig=eccn%3Atrue&format=json"

/-- Output path of a fixture scorecard document. -/
def scorecardPath (id : Nat) : String :=
  "json_data/aucb_matches/" ++ toString id ++ "/scorecard.json"

/-- Output path of an innings document. -/
def inningPath (id n : Nat) : String :=
  "json_data/aucb_matches/" ++ toString id ++ "/inning" ++ toString n ++ ".json"

/-- The work items generated for one fixture id: the scorecard request when
its file is absent, then one request per innings 1..4 whose file is absent. -/
def fixtureItems (ex : String → Bool) (id : Nat) : List UrlInfo :=
  (if ex (scorecardPath id) then []
   else [⟨scorecardUrl id, id, "scorecard"⟩]) ++
  ([1, 2, 3, 4].filterMap fun n =>
    if ex (inningPath id n) then none
    else some ⟨commentsUrl id n, id, "inning" ++ toString n⟩)

/-- All items for a list of fixture ids, in order. -/
def allItems (ex : String → Bool) : List Nat → List UrlInfo
  | [] => []
  | id :: rest => fixtureItems ex id ++ allItems ex rest

/-- The generation loop: append each fixture id in turn and stop as soon
as the accumulated list exceeds 1000 items. -/
def genGo (ex : String → Bool) : List Nat → List UrlInfo → List UrlInfo
  | [], acc => acc
  | id :: rest, acc =>
    let acc' := acc ++ fixtureItems ex id
    if acc'.length > 1000 then acc' else genGo ex rest acc'

/-- The frontier in descending id order, as sorted(ids, reverse=True). -/
def sortDesc (ids : List Nat) : List Nat :=
  List.insertionSort (fun a b : Nat => a ≥ b) ids

instance : IsTotal Nat (fun a b : Nat => a ≥ b) :=
  ⟨fun a b => (Nat.le_total b a).imp id id⟩

instance : IsTrans Nat (fun a b : Nat => a ≥ b) :=
  ⟨fun _ _ _ h h' => le_trans h' h⟩

/-- CricketScraper.generate_urls: iterate the frontier in descending order,
emitting the absent sub-resource requests per fixture, capped per run. -/
def generate_urls (ex : String → Bool) (fixtureIds : List Nat) : List UrlInfo :=
  genGo ex (sortDesc fixtureIds) []

/-! ### Concrete inputs used by witnesses and counterexamples -/

/-- A two-team environment in which every player resolves to team 3. -/
def envW : Env :=
  { playerTeamId := fun _ => some 3
    teamIds := [3, 4] }

/-- A plain legal delivery at innings 1, over 1, ball 1 with no runs. -/
def cBase : Comment :=
  { inningNumber := some 1
    overNumber := some 1
    ballNumber := some 1
    batsmanPlayerId := some 5
    bowlerPlayerId := some 7
    oversActual := some (some (1/10))
    totalRuns := 0
    batsmanRuns := 0
    legbyes := 0
    byes := 0
    wides := 0
    noballs := 0
    isWicket := false
    dismissalType := none
    isFour := false
    isSix := false }

/-- A delivery whose oversActual key is present but null: it passes the
required-key check, mutates the aggregates, then is dropped at the
ball-id formatting step. -/
def cBad : Comment :=
  { cBase with oversActual := some none, totalRuns := 3, batsmanRuns := 3 }

/-- A later plain delivery in the same innings. -/
def cGood : Comment :=
  { cBase with ballNumber := some 2, oversActual := some (some (1/5)) }

/-- A comment missing the required overNumber key. -/
def cMissing : Comment :=
  { cBase with overNumber := none }

/-- A second-innings scoring delivery used for the chase-metric witness. -/
def c2w : Comment :=
  { cBase with inningNumber := some 2, totalRuns := 3, batsmanRuns := 3 }

/-- A bowled wicket delivery (dismissal code 2). -/
def cWkt : Comment :=
  { cBase with isWicket := true, dismissalType := some 2 }

/-- A wide delivery. -/
def cWide : Comment :=
  { cBase with wides := 1, totalRuns := 1 }

/-- A no-ball hit for four. -/
def cNb4 : Comment :=
  { cBase with noballs := 1, batsmanRuns := 4, totalRuns := 5 }

/-- Two runs off the bat. -/
def cRun : Comment :=
  { cBase with batsmanRuns := 2, totalRuns := 2 }

/-- The guard conditions that skip a comment before any aggregate
mutation: a missing required key, a falsy player id, or unresolvable
teams. -/
def earlySkip (env : Env) (c : Comment) : Bool :=
  match requiredFields c with
  | none => true
  | some (inn, _, _, batId, bowlId, _) =>
    batId == 0 || bowlId == 0 || (resolveTeams env inn batId bowlId).isNone

/-- Pairwise monotonicity of the snapshotted counters between two output
records, scoped per innings, per (innings, batter) and per
(innings, bowler). -/
def scopeMono (r r' : Record) : Prop :=
  (r.inns = r'.inns →
    r.inns_runs ≤ r'.inns_runs ∧ r.inns_wkts ≤ r'.inns_wkts ∧
    r.inns_balls ≤ r'.inns_balls) ∧
  (r.inns = r'.inns ∧ r.p_bat = r'.p_bat →
    r.cur_bat_runs ≤ r'.cur_bat_runs ∧ r.cur_bat_bf ≤ r'.cur_bat_bf) ∧
  (r.inns = r'.inns ∧ r.p_bowl = r'.p_bowl →
    r.cur_bowl_ovr ≤ r'.cur_bowl_ovr ∧ r.cur_bowl_wkts ≤ r'.cur_bowl_wkts ∧
    r.cur_bowl_runs ≤ r'.cur_bowl_runs)

/-- Pointwise order on aggregate states: every counter of every scope is
at most the corresponding counter of the second state. -/
def stateLE (s s' : RState) : Prop :=
  (∀ k, (s.inning k).runs ≤ (s'.inning k).runs ∧
    (s.inning k).wkts ≤ (s'.inning k).wkts ∧
    (s.inning k).balls ≤ (s'.inning k).balls) ∧
  (∀ k, (s.batsman k).runs ≤ (s'.batsman k).runs ∧
    (s.batsman k).bf ≤ (s'.batsman k).bf) ∧
  (∀ k, (s.bowler k).balls ≤ (s'.bowler k).balls ∧
    (s.bowler k).wkts ≤ (s'.bowler k).wkts ∧
    (s.bowler k).runs ≤ (s'.bowler k).runs)

/-- The counters of a state bound the snapshot fields of a record from
below, at the keys of the record. -/
def lbAt (s : RState) (r : Record) : Prop :=
  (s.inning r.inns).runs ≤ r.inns_runs ∧
  (s.inning r.inns).wkts ≤ r.inns_wkts ∧
  (s.inning r.inns).balls ≤ r.inns_balls ∧
  (s.batsman (r.inns, r.p_bat)).runs ≤ r.cur_bat_runs ∧
  (s.batsman (r.inns, r.p_bat)).bf ≤ r.cur_bat_bf ∧
  bowlOvr ((s.bowler (r.inns, r.p_bowl)).balls) ≤ r.cur_bowl_ovr ∧
  (s.bowler (r.inns, r.p_bowl)).wkts ≤ r.cur_bowl_wkts ∧
  (s.bowler (r.inns, r.p_bowl)).runs ≤ r.cur_bowl_runs

/-- The record emitted for cWkt from the empty state. -/
def rWkt : Record :=
  ((processComment envW none 120 initState cWkt).2).getD default

/-- The record emitted for cBase from the empty state. -/
def rBase : Record :=
  ((processComment envW none 120 initState cBase).2).getD default

/-- The record emitted for the chase-metric witness delivery. -/
def r2w : Record :=
  ((processComment envW (computeTarget (some 10)) (computeMaxBalls none)
    initState c2w).2).getD default

/-! ## Theorems -/

/-- format_ball_id returns None exactly on a null oversActual: every other
branch builds a non-empty string.  This justifies the null gate used in
processComment. -/
theorem formatBallId_eq_none_iff (oa : Option ℚ) :
    formatBallId oa = none ↔ oa = none := by
  cases oa with
  | none => simp [formatBallId]
  | some q =>
    simp only [formatBallId]
    split_ifs <;> simp

/-- C1: the outcome label of a delivery is decided by the fixed precedence
wicket, wide, no-ball (with its off-bat sub-labels), four, six, any
positive runs, no run; the final clause is stated for consistent
deliveries whose total equals the sum of its parts. -/
theorem C1_outcome (c : Comment) :
    (c.isWicket = true → determine_outcome c = "wicket") ∧
    (c.isWicket = false → 0 < c.wides → determine_outcome c = "wide") ∧
    (c.isWicket = false → c.wides = 0 → 0 < c.noballs →
      determine_outcome c =
        (if c.batsmanRuns = 4 then "noball+four"
         else if c.batsmanRuns = 6 then "noball+six"
         else if 0 < c.batsmanRuns then "noball+run"
         else "noball")) ∧
    (c.isWicket = false → c.wides = 0 → c.noballs = 0 → c.isFour = true →
      determine_outcome c = "four") ∧
    (c.isWicket = false → c.wides = 0 → c.noballs = 0 → c.isFour = false →
      c.isSix = true → determine_outcome c = "six") ∧
    (c.isWicket = false → c.wides = 0 → c.noballs = 0 → c.isFour = false →
      c.isSix = false → WF c →
      determine_outcome c =
        (if 0 < c.batsmanRuns + c.byes + c.legbyes then "run" else "no run")) := by
  refine ⟨?_, ?_, ?_, ?_, ?_, ?_⟩
  · intro h; simp [determine_outcome, h]
  · intro h hw; simp [determine_outcome, h, hw]
  · intro h hw hn; simp [determine_outcome, h, hw, Nat.pos_iff_ne_zero.mp hn]
  · intro h hw hn hf; simp [determine_outcome, h, hw, hn, hf]
  · intro h hw hn hf hs; simp [determine_outcome, h, hw, hn, hf, hs]
  · intro h hw hn hf hs hwf
    unfold WF at hwf
    rcases Nat.eq_zero_or_pos (c.batsmanRuns + c.byes + c.legbyes) with hz | hp
    · have hb : c.batsmanRuns = 0 := by omega
      have hy : c.byes = 0 := by omega
      have hl : c.legbyes = 0 := by omega
      simp [determine_outcome, h, hw, hn, hf, hs, hb, hy, hl]
    · have ht : 0 < c.totalRuns := by omega
      have hd : 0 < c.batsmanRuns ∨ 0 < c.legbyes ∨ 0 < c.byes := by omega
      simp only [determine_outcome, h, hw, hn, hf, hs]
      simp only [Bool.false_eq_true, if_false, lt_irrefl]
      rw [if_pos (by omega), if_pos (by omega), if_pos hp]

/-- Witness for C1 at concrete deliveries: a wicket, a wide, a no-ball
four, and a two-run delivery. -/
theorem C1_outcome_witness :
    determine_outcome cWkt = "wicket" ∧
    determine_outcome cWide = "wide" ∧
    determine_outcome cNb4 = "noball+four" ∧
    determine_outcome cRun = "run" ∧
    determine_outcome cBase = "no run" := by
  refine ⟨(C1_outcome cWkt).1 rfl,
    (C1_outcome cWide).2.1 rfl (by decide),
    ((C1_outcome cNb4).2.2.1 rfl rfl (by decide)).trans (by decide),
    ((C1_outcome cRun).2.2.2.2.2 rfl rfl rfl rfl rfl (by decide)).trans (by decide),
    ((C1_outcome cBase).2.2.2.2.2 rfl rfl rfl rfl rfl (by decide)).trans (by decide)⟩

/-- A delivery that emits a record went through the full guard chain: its
required fields were present with a non-null oversActual, its player ids
were truthy, its teams resolved, its aggregates were updated by stepStats,
and the record is the snapshot of the updated state. -/
theorem processComment_emit (env : Env) (t : Option Int) (m : Nat) (s : RState)
    (c : Comment) (r : Record) (h : (processComment env t m s c).2 = some r) :
    ∃ inn over ball batId bowlId q,
      requiredFields c = some (inn, over, ball, batId, bowlId, some q) ∧
      ¬(batId = 0 ∨ bowlId = 0) ∧
      (resolveTeams env inn batId bowlId).isSome = true ∧
      (processComment env t m s c).1 = stepStats inn batId bowlId c s ∧
      r = mkRecord t m inn over ball batId bowlId c
        (stepStats inn batId bowlId c s) := by
  rcases hP : processComment env t m s c with ⟨s1, o⟩
  dsimp only at h ⊢
  have h2 : o = some r := by rw [hP] at h; exact h
  unfold processComment at hP
  split at hP
  · injection hP with hs ho
    rw [← ho] at h2
    simp at h2
  · rename_i inn over ball batId bowlId oa heq
    split_ifs at hP with hz
    · injection hP with hs ho
      rw [← ho] at h2
      simp at h2
    · split at hP
      · injection hP with hs ho
        rw [← ho] at h2
        simp at h2
      · rename_i tp hrt
        split at hP
        · rename_i hoa
          dsimp only at hP
          injection hP with hs ho
          rw [← ho] at h2
          simp at h2
        · rename_i qv
          dsimp only at hP
          injection hP with hs ho
          rw [← ho] at h2
          simp only [Option.some.injEq] at h2
          exact ⟨inn, over, ball, batId, bowlId, qv, heq, hz,
            by rw [hrt]; rfl, hs.symm, h2.symm⟩

/-- The snapshot keys of an emitted record are the extracted innings and
player ids. -/
theorem mkRecord_keys (t : Option Int) (m : Nat) (inn over ball batId bowlId : Nat)
    (c : Comment) (s' : RState) :
    (mkRecord t m inn over ball batId bowlId c s').inns = inn ∧
    (mkRecord t m inn over ball batId bowlId c s').over = over ∧
    (mkRecord t m inn over ball batId bowlId c s').ball = ball ∧
    (mkRecord t m inn over ball batId bowlId c s').p_bat = batId ∧
    (mkRecord t m inn over ball batId bowlId c s').p_bowl = bowlId :=
  ⟨rfl, rfl, rfl, rfl, rfl⟩

/-- C3: an emitted wicket delivery always bumps the innings wicket count
by exactly one, and bumps the bowler credited-wicket count exactly when
the dismissal code is one credited to bowling (1 caught, 2 bowled, 3 lbw,
5 stumped, 11 hit wicket); a run out (code 4) leaves the bowler count
unchanged while a bowled (code 2) bumps it. -/
theorem C3_wickets (env : Env) (t : Option Int) (m : Nat) (s : RState)
    (c : Comment) (r : Record)
    (h : (processComment env t m s c).2 = some r) (hw : c.isWicket = true) :
    (((processComment env t m s c).1.inning r.inns).wkts
      = (s.inning r.inns).wkts + 1) ∧
    (((processComment env t m s c).1.bowler (r.inns, r.p_bowl)).wkts
      = (s.bowler (r.inns, r.p_bowl)).wkts
        + (if bowlerCredited c then 1 else 0)) ∧
    (c.dismissalType = some 4 →
      ((processComment env t m s c).1.bowler (r.inns, r.p_bowl)).wkts
        = (s.bowler (r.inns, r.p_bowl)).wkts) ∧
    (c.dismissalType = some 2 →
      ((processComment env t m s c).1.bowler (r.inns, r.p_bowl)).wkts
        = (s.bowler (r.inns, r.p_bowl)).wkts + 1) := by
  obtain ⟨inn, over, ball, batId, bowlId, q, hrf, hz, hrt, h1, hr⟩ :=
    processComment_emit env t m s c r h
  subst hr
  rw [h1]
  simp only [mkRecord, stepStats, Function.update_same]
  refine ⟨by simp [hw], by simp [hw], ?_, ?_⟩
  · intro hd; simp [hw, bowlerCredited, hd]
  · intro hd; simp [hw, bowlerCredited, hd]

/-- Witness for C3: a bowled wicket from the empty state bumps both
counters. -/
theorem C3_wickets_witness :
    (((processComment envW none 120 initState cWkt).1.inning rWkt.inns).wkts
      = (initState.inning rWkt.inns).wkts + 1) ∧
    (((processComment envW none 120 initState cWkt).1.bowler
        (rWkt.inns, rWkt.p_bowl)).wkts
      = (initState.bowler (rWkt.inns, rWkt.p_bowl)).wkts
        + (if bowlerCredited cWkt then 1 else 0)) ∧
    (cWkt.dismissalType = some 4 →
      ((processComment envW none 120 initState cWkt).1.bowler
          (rWkt.inns, rWkt.p_bowl)).wkts
        = (initState.bowler (rWkt.inns, rWkt.p_bowl)).wkts) ∧
    (cWkt.dismissalType = some 2 →
      ((processComment envW none 120 initState cWkt).1.bowler
          (rWkt.inns, rWkt.p_bowl)).wkts
        = (initState.bowler (rWkt.inns, rWkt.p_bowl)).wkts + 1) :=
  C3_wickets envW none 120 initState cWkt rWkt rfl rfl

/-- C4: on an emitted delivery the three ball counters grow by one exactly
when the delivery is neither a wide nor a no-ball, the batter runs grow by
the off-bat runs, and the bowler conceded runs grow by total minus byes
minus leg-byes, regardless of legality. -/
theorem C4_legal (env : Env) (t : Option Int) (m : Nat) (s : RState)
    (c : Comment) (r : Record) (h : (processComment env t m s c).2 = some r) :
    (((processComment env t m s c).1.inning r.inns).balls
      = (s.inning r.inns).balls
        + (if c.wides = 0 ∧ c.noballs = 0 then 1 else 0)) ∧
    (((processComment env t m s c).1.bowler (r.inns, r.p_bowl)).balls
      = (s.bowler (r.inns, r.p_bowl)).balls
        + (if c.wides = 0 ∧ c.noballs = 0 then 1 else 0)) ∧
    (((processComment env t m s c).1.batsman (r.inns, r.p_bat)).bf
      = (s.batsman (r.inns, r.p_bat)).bf
        + (if c.wides = 0 ∧ c.noballs = 0 then 1 else 0)) ∧
    (((processComment env t m s c).1.batsman (r.inns, r.p_bat)).runs
      = (s.batsman (r.inns, r.p_bat)).runs + c.batsmanRuns) ∧
    (((processComment env t m s c).1.bowler (r.inns, r.p_bowl)).runs
      = (s.bowler (r.inns, r.p_bowl)).runs
        + ((c.totalRuns : Int) - (c.byes : Int) - (c.legbyes : Int))) := by
  obtain ⟨inn, over, ball, batId, bowlId, q, hrf, hz, hrt, h1, hr⟩ :=
    processComment_emit env t m s c r h
  subst hr
  rw [h1]
  simp only [mkRecord, stepStats, Function.update_same, runsConceded]
  have hleg : (if isLegal c then (1 : Nat) else 0)
      = (if c.wides = 0 ∧ c.noballs = 0 then 1 else 0) := by
    simp [isLegal, Bool.and_eq_true, beq_iff_eq]
  refine ⟨?_, ?_, ?_, ?_, ?_⟩ <;> simp [hleg]

/-- Witness for C4: a plain legal delivery from the empty state. -/
theorem C4_legal_witness :
    (((processComment envW none 120 initState cBase).1.inning rBase.inns).balls
      = (initState.inning rBase.inns).balls
        + (if cBase.wides = 0 ∧ cBase.noballs = 0 then 1 else 0)) ∧
    (((processComment envW none 120 initState cBase).1.bowler
        (rBase.inns, rBase.p_bowl)).balls
      = (initState.bowler (rBase.inns, rBase.p_bowl)).balls
        + (if cBase.wides = 0 ∧ cBase.noballs = 0 then 1 else 0)) ∧
    (((processComment envW none 120 initState cBase).1.batsman
        (rBase.inns, rBase.p_bat)).bf
      = (initState.batsman (rBase.inns, rBase.p_bat)).bf
        + (if cBase.wides = 0 ∧ cBase.noballs = 0 then 1 else 0)) ∧
    (((processComment envW none 120 initState cBase).1.batsman
        (rBase.inns, rBase.p_bat)).runs
      = (initState.batsman (rBase.inns, rBase.p_bat)).runs + cBase.batsmanRuns) ∧
    (((processComment envW none 120 initState cBase).1.bowler
        (rBase.inns, rBase.p_bowl)).runs
      = (initState.bowler (rBase.inns, rBase.p_bowl)).runs
        + ((cBase.totalRuns : Int) - (cBase.byes : Int) - (cBase.legbyes : Int))) :=
  C4_legal envW none 120 initState cBase rBase rfl

/-- The component behaviour of the chase metrics in a second innings with
a known target. -/
theorem chaseMetrics_spec (T : Int) (m runs balls : Nat) :
    (chaseMetrics 2 (some T) m runs balls).1
      = some (((T - (runs : Int)) : Int) : ℚ) ∧
    (chaseMetrics 2 (some T) m runs balls).2.1
      = some ((m : Int) - (balls : Int)) ∧
    (T - (runs : Int) ≤ 0 →
      (chaseMetrics 2 (some T) m runs balls).2.2 = some 0) ∧
    ((m : Int) - (balls : Int) ≤ 0 → 0 < T - (runs : Int) →
      (chaseMetrics 2 (some T) m runs balls).2.2 = none) ∧
    (0 < (m : Int) - (balls : Int) → 0 < T - (runs : Int) →
      (chaseMetrics 2 (some T) m runs balls).2.2
        = some (roundTo2 ((((T - (runs : Int)) : Int) : ℚ)
            / ((((m : Int) - (balls : Int)) : Int) : ℚ) * 6))) := by
  simp only [chaseMetrics, reduceIte]
  refine ⟨by trivial, by trivial, ?_, ?_, ?_⟩
  · intro hle
    have hq : ¬(0 : ℚ) < (((T - (runs : Int)) : Int) : ℚ) :=
      not_lt.mpr (by exact_mod_cast hle)
    have hq2 : (((T - (runs : Int)) : Int) : ℚ) ≤ 0 := by exact_mod_cast hle
    by_cases hb : (0 : Int) < (m : Int) - (balls : Int)
    · rw [if_pos hb, if_neg hq]
    · rw [if_neg hb, if_pos hq2]
  · intro hble hrp
    have hq : (0 : ℚ) < (((T - (runs : Int)) : Int) : ℚ) := by exact_mod_cast hrp
    rw [if_neg (not_lt.mpr hble), if_neg (not_le.mpr hq)]
  · intro hbp hrp
    have hq : (0 : ℚ) < (((T - (runs : Int)) : Int) : ℚ) := by exact_mod_cast hrp
    rw [if_pos hbp, if_pos hq]

/-- C2: the embedded current run rate is runs times six over legal balls
rounded to two decimals and absent at zero balls; in a second innings with
a known target (first innings total plus one) the remaining runs, the
remaining balls against the format cap, and the required run rate follow
the chase rules, with the rate 0 once the target is met and absent when
the balls are exhausted with runs outstanding; the concrete examples of
the spec evaluate as stated. -/
theorem C2_runrates (env : Env) (fr so : Option Nat) (s : RState)
    (c : Comment) (r : Record)
    (h : (processComment env (computeTarget fr) (computeMaxBalls so) s c).2
      = some r) :
    (r.inns_rr = currentRunRate r.inns_runs r.inns_balls) ∧
    (r.inns_balls = 0 → r.inns_rr = none) ∧
    (0 < r.inns_balls →
      r.inns_rr = some (roundTo2 ((r.inns_runs : ℚ) * 6 / (r.inns_balls : ℚ)))) ∧
    (∀ T : Int, r.inns = 2 → computeTarget fr = some T →
      r.inns_runs_rem = some (((T - (r.inns_runs : Int)) : Int) : ℚ) ∧
      r.inns_balls_rem
        = some ((computeMaxBalls so : Int) - (r.inns_balls : Int)) ∧
      (T - (r.inns_runs : Int) ≤ 0 → r.inns_rrr = some 0) ∧
      ((computeMaxBalls so : Int) - (r.inns_balls : Int) ≤ 0 →
        0 < T - (r.inns_runs : Int) → r.inns_rrr = none) ∧
      (0 < (computeMaxBalls so : Int) - (r.inns_balls : Int) →
        0 < T - (r.inns_runs : Int) →
        r.inns_rrr = some (roundTo2 ((((T - (r.inns_runs : Int)) : Int) : ℚ)
          / ((((computeMaxBalls so : Int) - (r.inns_balls : Int)) : Int) : ℚ)
          * 6)))) ∧
    (∀ n : Nat, computeTarget (some n) = some ((n : Int) + 1)) ∧
    currentRunRate 30 24 = some (15/2) ∧
    chaseMetrics 2 (some 150) 120 100 90 = (some 50, some 30, some 10) := by
  obtain ⟨inn, over, ball, batId, bowlId, q, hrf, hz, hrt, h1, hr⟩ :=
    processComment_emit env (computeTarget fr) (computeMaxBalls so) s c r h
  subst hr
  simp only [mkRecord]
  refine ⟨by trivial, ?_, ?_, ?_, ?_, ?_, ?_⟩
  · intro hb
    simp [currentRunRate, hb]
  · intro hb
    rw [currentRunRate, if_pos hb]
  · intro T h2 hT
    subst h2
    rw [hT]
    exact chaseMetrics_spec T (computeMaxBalls so)
      ((stepStats 2 batId bowlId c s).inning 2).runs
      ((stepStats 2 batId bowlId c s).inning 2).balls
  · intro n
    simp [computeTarget]
  · unfold currentRunRate roundTo2 roundHalfEven
    norm_num
  · unfold chaseMetrics roundTo2 roundHalfEven
    norm_num

/-- Witness for C2: a second-innings three-run delivery chasing a target
of 11 in a 120-ball format. -/
theorem C2_runrates_witness :
    (r2w.inns_rr = currentRunRate r2w.inns_runs r2w.inns_balls) ∧
    (r2w.inns_balls = 0 → r2w.inns_rr = none) ∧
    (0 < r2w.inns_balls →
      r2w.inns_rr
        = some (roundTo2 ((r2w.inns_runs : ℚ) * 6 / (r2w.inns_balls : ℚ)))) ∧
    (∀ T : Int, r2w.inns = 2 → computeTarget (some 10) = some T →
      r2w.inns_runs_rem = some (((T - (r2w.inns_runs : Int)) : Int) : ℚ) ∧
      r2w.inns_balls_rem
        = some ((computeMaxBalls none : Int) - (r2w.inns_balls : Int)) ∧
      (T - (r2w.inns_runs : Int) ≤ 0 → r2w.inns_rrr = some 0) ∧
      ((computeMaxBalls none : Int) - (r2w.inns_balls : Int) ≤ 0 →
        0 < T - (r2w.inns_runs : Int) → r2w.inns_rrr = none) ∧
      (0 < (computeMaxBalls none : Int) - (r2w.inns_balls : Int) →
        0 < T - (r2w.inns_runs : Int) →
        r2w.inns_rrr = some (roundTo2 ((((T - (r2w.inns_runs : Int)) : Int) : ℚ)
          / ((((computeMaxBalls none : Int) - (r2w.inns_balls : Int)) : Int) : ℚ)
          * 6)))) ∧
    (∀ n : Nat, computeTarget (some n) = some ((n : Int) + 1)) ∧
    currentRunRate 30 24 = some (15/2) ∧
    chaseMetrics 2 (some 150) 120 100 90 = (some 50, some 30, some 10) :=
  C2_runrates envW (some 10) none initState c2w r2w rfl

/-- C10: validate_date rejects a missing object, a missing component, or a
month outside 1..12, and otherwise clamps the day into the month and
formats the result as YYYY-MM-DD; it never rejects for an out-of-range
day alone. -/
theorem C10_validate_date :
    validate_date none = none ∧
    (∀ d : DOB, d.date = none ∨ d.month = none ∨ d.year = none →
      validate_date (some d) = none) ∧
    (∀ y m day : Int, m < 1 ∨ m > 12 →
      validate_date (some ⟨some day, some m, some y⟩) = none) ∧
    (∀ y m day : Int, 1 ≤ m → m ≤ 12 →
      validate_date (some ⟨some day, some m, some y⟩) =
        some (padInt 4 y ++ "-" ++ padInt 2 m ++ "-" ++
          padInt 2 (if day < 1 then 1
                    else if day > monthLastDay y m then monthLastDay y m
                    else day))) := by
  refine ⟨rfl, ?_, ?_, ?_⟩
  · rintro ⟨dd, dm, dy⟩ h
    rcases hd : dd with _ | day <;> rcases hm : dm with _ | month <;>
      rcases hy : dy with _ | year <;> simp_all [validate_date]
  · intro y m day h
    simp only [validate_date]
    rw [if_pos h]
  · intro y m day h1 h2
    simp only [validate_date]
    rw [if_neg (by omega)]

/-- Witness for C10: 2023-02-31 is clamped to 2023-02-28, month 13 is
rejected. -/
theorem C10_validate_date_witness :
    validate_date (some ⟨some 31, some 2, some 2023⟩) = some "2023-02-28" ∧
    validate_date (some ⟨some 5, some 13, some 2000⟩) = none := by
  refine ⟨(C10_validate_date.2.2.2 2023 2 31 (by decide) (by decide)).trans (by decide),
    C10_validate_date.2.2.1 2000 13 5 (by decide)⟩

/-- C5 counterexample: a delivery with every required key present, truthy
player ids and resolvable teams, but a null oversActual value, is skipped
with no output record, yet it mutates the aggregates: from the empty state
its three runs appear in the innings total, as the surviving record of the
following delivery shows. -/
theorem C5_skip_counterexample :
    (processComment envW none 120 initState cBad).2 = none ∧
    ((processComment envW none 120 initState cBad).1.inning 1).runs = 3 ∧
    (initState.inning 1).runs = 0 ∧
    (create_bbb_json envW none none [cBad, cGood]).map
      (fun r => (r.score, r.inns_runs)) = [(0, 3)] :=
  ⟨by decide, by decide, rfl, by decide⟩

/-- C5 (amended): an event skipped by one of the pre-update guards —
missing required key, falsy player id, unresolvable teams — leaves every
aggregate untouched and emits no record; but an event that passes those
guards with a null oversActual is skipped only after the aggregate update:
it emits no record yet leaves the mutated aggregates behind. -/
theorem C5_skip (env : Env) (t : Option Int) (m : Nat) (s : RState)
    (c : Comment) (inn over ball batId bowlId : Nat) :
    (earlySkip env c = true → processComment env t m s c = (s, none)) ∧
    (requiredFields c = some (inn, over, ball, batId, bowlId, none) →
      ¬(batId = 0 ∨ bowlId = 0) →
      (resolveTeams env inn batId bowlId).isSome = true →
      processComment env t m s c = (stepStats inn batId bowlId c s, none)) := by
  constructor
  · intro hes
    unfold earlySkip at hes
    unfold processComment
    rcases hrf : requiredFields c with _ | ⟨inn', over', ball', batId', bowlId', oa'⟩
    · simp only [hrf]
    · rw [hrf] at hes
      simp only [hrf]
      simp only [Bool.or_eq_true, beq_iff_eq, Option.isNone_iff_eq_none] at hes
      by_cases hz : batId' = 0 ∨ bowlId' = 0
      · rw [if_pos hz]
      · rw [if_neg hz]
        have hrt : resolveTeams env inn' batId' bowlId' = none := by
          rcases hes with (h | h) | h
          · exact absurd (Or.inl h) hz
          · exact absurd (Or.inr h) hz
          · exact h
        simp only [hrt]
  · intro hrf hz hrt
    unfold processComment
    simp only [hrf]
    rw [if_neg hz]
    obtain ⟨tp, htp⟩ := Option.isSome_iff_exists.mp hrt
    simp only [htp]

/-- Witness for C5: a comment missing its overNumber key is skipped with
no mutation; the null-oversActual comment mutates the aggregates while
emitting nothing. -/
theorem C5_skip_witness :
    processComment envW none 120 initState cMissing = (initState, none) ∧
    processComment envW none 120 initState cBad
      = (stepStats 1 5 7 cBad initState, none) :=
  ⟨(C5_skip envW none 120 initState cMissing 0 0 0 0 0).1 (by decide),
   (C5_skip envW none 120 initState cBad 1 1 1 5 7).2 rfl (by decide)
     (by decide)⟩

/-- The innings, over and ball keys recorded by requiredFields are the
comment key fields themselves. -/
theorem requiredFields_some (c : Comment) (inn over ball batId bowlId : Nat)
    (oa : Option ℚ)
    (h : requiredFields c = some (inn, over, ball, batId, bowlId, oa)) :
    c.inningNumber = some inn ∧ c.overNumber = some over ∧
    c.ballNumber = some ball := by
  obtain ⟨i, o, b, e, f, g, _, _, _, _, _, _, _, _, _, _⟩ := c
  cases i <;> cases o <;> cases b <;> cases e <;> cases f <;> cases g <;>
    simp_all [requiredFields]

/-- The ordering key of an emitted record equals the sort key of the
comment it came from. -/
theorem emitted_recKey (env : Env) (t : Option Int) (m : Nat) (s : RState)
    (c : Comment) (r : Record) (h : (processComment env t m s c).2 = some r) :
    recKey r = sortKey c := by
  obtain ⟨inn, over, ball, batId, bowlId, q, hrf, hz, hrt, h1, hr⟩ :=
    processComment_emit env t m s c r h
  obtain ⟨hi, ho, hb⟩ := requiredFields_some c inn over ball batId bowlId _ hrf
  subst hr
  simp [recKey, mkRecord, sortKey, hi, ho, hb]

/-- The keys of the replay output form a sublist of the keys of the input
comment sequence. -/
theorem replay_keys_sublist (env : Env) (t : Option Int) (m : Nat) :
    ∀ (cs : List Comment) (s : RState),
      ((replay env t m s cs).2.map recKey).Sublist (cs.map sortKey) := by
  intro cs
  induction cs with
  | nil => intro s; simp [replay]
  | cons c cs ih =>
    intro s
    simp only [replay, List.map_cons]
    cases hp : (processComment env t m s c).2 with
    | none =>
      simp only [hp]
      exact List.Sublist.cons _ (ih _)
    | some r =>
      simp only [hp, List.map_cons]
      rw [emitted_recKey env t m s c r hp]
      exact List.Sublist.cons₂ _ (ih _)

/-- C6 counterexample: two identical valid deliveries produce two output
records with the same (innings, over, ball) key triple, so the output is
not strictly ordered. -/
theorem C6_order_counterexample :
    (create_bbb_json envW none none [cBase, cBase]).map recKey
      = [(1, 1, 1), (1, 1, 1)] ∧
    ¬ List.Pairwise keyLT
      ((create_bbb_json envW none none [cBase, cBase]).map recKey) := by
  have h : (create_bbb_json envW none none [cBase, cBase]).map recKey
      = [(1, 1, 1), (1, 1, 1)] := by decide
  refine ⟨h, ?_⟩
  rw [h]
  intro hp
  exact ((List.pairwise_cons.mp hp).1 (1, 1, 1) (by simp)).2 rfl

/-- C6 (amended): the replay processes events in the order of the stable
sort by (innings, over, ball), so the output keys are always
non-decreasing in the lexicographic order; they are strictly increasing —
no two records share a triple — exactly under the additional assumption
that the input events have pairwise distinct key triples. -/
theorem C6_order (env : Env) (fr so : Option Nat) (comments : List Comment) :
    List.Sorted keyLE ((create_bbb_json env fr so comments).map recKey) ∧
    ((comments.map sortKey).Nodup →
      List.Pairwise keyLT ((create_bbb_json env fr so comments).map recKey)) := by
  have hsorted : List.Sorted commentLE (sortComments comments) :=
    List.sorted_insertionSort commentLE comments
  have hkeys : List.Pairwise keyLE ((sortComments comments).map sortKey) :=
    List.Pairwise.map sortKey (fun a b h => h) hsorted
  have hsub : ((create_bbb_json env fr so comments).map recKey).Sublist
      ((sortComments comments).map sortKey) :=
    replay_keys_sublist env (computeTarget fr) (computeMaxBalls so)
      (sortComments comments) initState
  constructor
  · exact List.Pairwise.sublist hsub hkeys
  · intro hnd
    have hperm : ((sortComments comments).map sortKey).Perm
        (comments.map sortKey) :=
      (List.perm_insertionSort commentLE comments).map sortKey
    have hnd' : ((sortComments comments).map sortKey).Nodup :=
      hperm.nodup_iff.mpr hnd
    have hlt : List.Pairwise keyLT ((sortComments comments).map sortKey) :=
      List.Pairwise.imp (fun h => h) (List.Pairwise.and hkeys hnd')
    exact List.Pairwise.sublist hsub hlt

/-- Witness for C6 at two distinct-key deliveries. -/
theorem C6_order_witness :
    List.Sorted keyLE
      ((create_bbb_json envW none none [cBase, cGood]).map recKey) ∧
    List.Pairwise keyLT
      ((create_bbb_json envW none none [cBase, cGood]).map recKey) :=
  ⟨(C6_order envW none none [cBase, cGood]).1,
   (C6_order envW none none [cBase, cGood]).2 (by decide)⟩

/-- stateLE is reflexive. -/
theorem stateLE_refl (s : RState) : stateLE s s :=
  ⟨fun _ => ⟨le_rfl, le_rfl, le_rfl⟩, fun _ => ⟨le_rfl, le_rfl⟩,
   fun _ => ⟨le_rfl, le_rfl, le_rfl⟩⟩

/-- The bowler overs display value is monotone in the ball count. -/
theorem bowlOvr_mono {b1 b2 : Nat} (h : b1 ≤ b2) : bowlOvr b1 ≤ bowlOvr b2 := by
  unfold bowlOvr
  by_cases heq : b1 / 6 = b2 / 6
  · have hm : b1 % 6 ≤ b2 % 6 := by omega
    have hm' : ((b1 % 6 : Nat) : ℚ) ≤ ((b2 % 6 : Nat) : ℚ) := by exact_mod_cast hm
    rw [heq]
    linarith
  · have hlt : b1 / 6 + 1 ≤ b2 / 6 := by
      have := Nat.div_le_div_right (c := 6) h
      omega
    have h1 : ((b1 % 6 : Nat) : ℚ) / 10 < 1 := by
      have hx : (b1 % 6) < 6 := Nat.mod_lt _ (by norm_num)
      have hx' : ((b1 % 6 : Nat) : ℚ) < 6 := by exact_mod_cast hx
      linarith
    have h2 : (0 : ℚ) ≤ ((b2 % 6 : Nat) : ℚ) / 10 := by positivity
    have hq : ((b1 / 6 : Nat) : ℚ) + 1 ≤ ((b2 / 6 : Nat) : ℚ) := by
      exact_mod_cast hlt
    linarith

/-- A consistent delivery only moves the aggregates forward. -/
theorem stepStats_mono (inn batId bowlId : Nat) (c : Comment) (s : RState)
    (hwf : WF c) : stateLE s (stepStats inn batId bowlId c s) := by
  have hrc : 0 ≤ runsConceded c := by
    unfold WF at hwf
    unfold runsConceded
    omega
  unfold stateLE stepStats
  refine ⟨?_, ?_, ?_⟩
  · intro k
    simp only [Function.update_apply]
    by_cases hk : k = inn
    · subst hk
      rw [if_pos rfl]
      exact ⟨Nat.le_add_right _ _, Nat.le_add_right _ _, Nat.le_add_right _ _⟩
    · rw [if_neg hk]
      exact ⟨le_rfl, le_rfl, le_rfl⟩
  · intro k
    simp only [Function.update_apply]
    by_cases hk : k = (inn, batId)
    · subst hk
      rw [if_pos rfl]
      exact ⟨Nat.le_add_right _ _, Nat.le_add_right _ _⟩
    · rw [if_neg hk]
      exact ⟨le_rfl, le_rfl⟩
  · intro k
    simp only [Function.update_apply]
    by_cases hk : k = (inn, bowlId)
    · subst hk
      rw [if_pos rfl]
      exact ⟨Nat.le_add_right _ _, Nat.le_add_right _ _,
        le_add_of_nonneg_right hrc⟩
    · rw [if_neg hk]
      exact ⟨le_rfl, le_rfl, le_rfl⟩

/-- Every branch of the per-comment guard chain leaves the state equal or
moves it forward (for a consistent delivery). -/
theorem processComment_state_mono (env : Env) (t : Option Int) (m : Nat)
    (s : RState) (c : Comment) (hwf : WF c) :
    stateLE s (processComment env t m s c).1 := by
  unfold processComment
  rcases hrf : requiredFields c with _ | ⟨inn, over, ball, batId, bowlId, oa⟩
  · simp only [hrf]
    exact stateLE_refl s
  · simp only [hrf]
    split_ifs with hz
    · exact stateLE_refl s
    · rcases hrt : resolveTeams env inn batId bowlId with _ | tp
      · simp only [hrt]
        exact stateLE_refl s
      · simp only [hrt]
        rcases oa with _ | qv
        · exact stepStats_mono inn batId bowlId c s hwf
        · exact stepStats_mono inn batId bowlId c s hwf

/-- Lower bounds transport backward along stateLE. -/
theorem lbAt_mono {s s' : RState} (h : stateLE s s') {r : Record}
    (h2 : lbAt s' r) : lbAt s r := by
  obtain ⟨hi, hb, hw⟩ := h
  obtain ⟨a1, a2, a3, a4, a5, a6, a7, a8⟩ := h2
  exact ⟨le_trans (hi r.inns).1 a1, le_trans (hi r.inns).2.1 a2,
    le_trans (hi r.inns).2.2 a3, le_trans (hb _).1 a4, le_trans (hb _).2 a5,
    le_trans (bowlOvr_mono (hw _).1) a6, le_trans (hw _).2.1 a7,
    le_trans (hw _).2.2 a8⟩

/-- An emitted record is bounded below by the pre-event state: its
snapshot fields equal the post-event state at its keys, and the event only
moves the state forward. -/
theorem emitted_lbAt (env : Env) (t : Option Int) (m : Nat) (s : RState)
    (c : Comment) (r : Record) (h : (processComment env t m s c).2 = some r)
    (hwf : WF c) : lbAt s r := by
  obtain ⟨inn, over, ball, batId, bowlId, q, hrf, hz, hrt, h1, hr⟩ :=
    processComment_emit env t m s c r h
  subst hr
  apply lbAt_mono (stepStats_mono inn batId bowlId c s hwf)
  unfold lbAt
  simp only [mkRecord]
  exact ⟨le_rfl, le_rfl, le_rfl, le_rfl, le_rfl, le_rfl, le_rfl, le_rfl⟩

/-- Every record produced by a replay of consistent deliveries is bounded
below by the starting state at its own keys. -/
theorem replay_lb (env : Env) (t : Option Int) (m : Nat) :
    ∀ (cs : List Comment) (s : RState), (∀ c ∈ cs, WF c) →
      ∀ r' ∈ (replay env t m s cs).2, lbAt s r' := by
  intro cs
  induction cs with
  | nil =>
    intro s _ r' hr'
    simp [replay] at hr'
  | cons c cs ih =>
    intro s hwf r' hr'
    simp only [replay] at hr'
    have hwfc : WF c := hwf c (by simp)
    have hwfcs : ∀ x ∈ cs, WF x := fun x hx => hwf x (by simp [hx])
    have hmono : stateLE s (processComment env t m s c).1 :=
      processComment_state_mono env t m s c hwfc
    cases hp : (processComment env t m s c).2 with
    | none =>
      simp only [hp] at hr'
      exact lbAt_mono hmono (ih (processComment env t m s c).1 hwfcs r' hr')
    | some r0 =>
      simp only [hp] at hr'
      rcases List.mem_cons.mp hr' with h | h
      · subst h
        exact emitted_lbAt env t m s c r' hp hwfc
      · exact lbAt_mono hmono (ih (processComment env t m s c).1 hwfcs r' h)

/-- An emitted record is scope-monotone below any record bounded below by
the post-event state. -/
theorem emitted_scopeMono (env : Env) (t : Option Int) (m : Nat) (s : RState)
    (c : Comment) (r : Record) (h : (processComment env t m s c).2 = some r)
    (r' : Record) (hlb : lbAt (processComment env t m s c).1 r') :
    scopeMono r r' := by
  obtain ⟨inn, over, ball, batId, bowlId, q, hrf, hz, hrt, h1, hr⟩ :=
    processComment_emit env t m s c r h
  rw [h1] at hlb
  subst hr
  obtain ⟨a1, a2, a3, a4, a5, a6, a7, a8⟩ := hlb
  unfold scopeMono
  simp only [mkRecord]
  refine ⟨?_, ?_, ?_⟩
  · intro hinns
    rw [← hinns] at a1 a2 a3
    exact ⟨a1, a2, a3⟩
  · rintro ⟨hinns, hbat⟩
    rw [← hinns, ← hbat] at a4 a5
    exact ⟨a4, a5⟩
  · rintro ⟨hinns, hbowl⟩
    rw [← hinns, ← hbowl] at a6 a7 a8
    exact ⟨a6, a7, a8⟩

/-- The replay of consistent deliveries emits a scope-monotone sequence. -/
theorem replay_pairwise (env : Env) (t : Option Int) (m : Nat) :
    ∀ (cs : List Comment) (s : RState), (∀ c ∈ cs, WF c) →
      List.Pairwise scopeMono (replay env t m s cs).2 := by
  intro cs
  induction cs with
  | nil =>
    intro s _
    simp [replay]
  | cons c cs ih =>
    intro s hwf
    simp only [replay]
    have hwfc : WF c := hwf c (by simp)
    have hwfcs : ∀ x ∈ cs, WF x := fun x hx => hwf x (by simp [hx])
    cases hp : (processComment env t m s c).2 with
    | none =>
      simp only [hp]
      exact ih (processComment env t m s c).1 hwfcs
    | some r0 =>
      simp only [hp]
      refine List.pairwise_cons.mpr ⟨?_, ih (processComment env t m s c).1 hwfcs⟩
      intro r' hr'
      exact emitted_scopeMono env t m s c r0 hp r'
        (replay_lb env t m cs (processComment env t m s c).1 hwfcs r' hr')

/-- C7: along the output of a transformed match built from consistent
deliveries, the snapshotted counters are non-decreasing between any two
records of the same scope: the innings counters when the innings match,
the batter counters when innings and batter match, and the bowler counters
when innings and bowler match. -/
theorem C7_monotone (env : Env) (fr so : Option Nat) (comments : List Comment)
    (hwf : ∀ c ∈ comments, WF c) :
    List.Pairwise scopeMono (create_bbb_json env fr so comments) := by
  unfold create_bbb_json
  apply replay_pairwise
  intro c hc
  apply hwf
  unfold sortComments at hc
  exact (List.mem_insertionSort commentLE).mp hc

/-- Witness for C7 on a concrete two-delivery innings. -/
theorem C7_monotone_witness :
    (∀ c ∈ [cBase, cGood], WF c) ∧
    List.Pairwise scopeMono (create_bbb_json envW none none [cBase, cGood]) :=
  ⟨by decide, C7_monotone envW none none [cBase, cGood] (by decide)⟩

/-- C8 counterexample: an empty decoded payload has at most one (zero)
top-level keys, yet fetch_url keeps it, because the Python guard
data and len(data) <= 1 is short-circuited by the falsy empty dict. -/
theorem C8_fetch_counterexample :
    ([] : List String).length ≤ 1 ∧
    fetch_url ⟨"u", 77, "scorecard"⟩ ⟨200, some []⟩
      = some ⟨77, "scorecard", []⟩ :=
  ⟨by decide, by decide⟩

/-- C8 (amended): fetch_url returns none exactly when the status is not
200, the body fails JSON decoding, or the decoded payload is non-empty
with at most one top-level key; an empty payload is kept, and every kept
payload is returned together with its fixture id and document kind. -/
theorem C8_fetch (info : UrlInfo) (resp : FetchResponse) :
    (fetch_url info resp = none ↔
      resp.status ≠ 200 ∨ resp.body = none ∨
      (∃ keys, resp.body = some keys ∧ keys ≠ [] ∧ keys.length ≤ 1)) ∧
    (∀ keys, resp.status = 200 → resp.body = some keys →
      (keys = [] ∨ 2 ≤ keys.length) →
      fetch_url info resp = some ⟨info.fixture_id, info.type', keys⟩) := by
  rcases resp with ⟨st, body⟩
  constructor
  · unfold fetch_url
    dsimp only
    by_cases hs : st ≠ 200
    · rw [if_pos hs]
      simp [hs]
    · rw [if_neg hs]
      rcases body with _ | keys
      · simp
      · dsimp only
        by_cases hk : keys ≠ [] ∧ keys.length ≤ 1
        · rw [if_pos hk]
          simp [hs, hk.1, hk.2]
        · rw [if_neg hk]
          constructor
          · intro h
            simp at h
          · rintro (h | h | ⟨ks, hks, hne, hlen⟩)
            · exact absurd h hs
            · simp at h
            · simp only [Option.some.injEq] at hks
              subst hks
              exact absurd ⟨hne, hlen⟩ hk
  · intro keys hs hb hcases
    subst hb
    unfold fetch_url
    dsimp only
    rw [if_neg (by push_neg; exact hs)]
    rw [if_neg (by
      rcases hcases with h | h
      · simp [h]
      · exact fun hc => absurd hc.2 (by omega))]

/-- Witness for C8: a two-key payload at status 200 is kept; a 404 is
dropped. -/
theorem C8_fetch_witness :
    fetch_url ⟨"u", 5, "inning1"⟩ ⟨200, some ["a", "b"]⟩
      = some ⟨5, "inning1", ["a", "b"]⟩ ∧
    fetch_url ⟨"u", 5, "inning1"⟩ ⟨404, some ["a", "b"]⟩ = none :=
  ⟨(C8_fetch ⟨"u", 5, "inning1"⟩ ⟨200, some ["a", "b"]⟩).2 ["a", "b"] rfl rfl
      (Or.inr (by decide)),
   (C8_fetch ⟨"u", 5, "inning1"⟩ ⟨404, some ["a", "b"]⟩).1.mpr
      (Or.inl (by decide))⟩

/-- The generation loop processes a prefix of the frontier: it returns the
accumulated items of the first k fixtures, every proper prefix stayed at
or below the 1000-item cap, and it stopped early only because the cap was
exceeded. -/
theorem genGo_spec (ex : String → Bool) :
    ∀ (l : List Nat) (acc : List UrlInfo), acc.length ≤ 1000 →
      ∃ k, k ≤ l.length ∧
        genGo ex l acc = acc ++ allItems ex (l.take k) ∧
        (∀ j < k, (acc ++ allItems ex (l.take j)).length ≤ 1000) ∧
        (k < l.length → 1000 < (acc ++ allItems ex (l.take k)).length) := by
  intro l
  induction l with
  | nil =>
    intro acc hacc
    refine ⟨0, le_rfl, by simp [genGo, allItems], ?_, ?_⟩
    · intro j hj
      exact absurd hj (Nat.not_lt_zero j)
    · intro h
      exact absurd h (lt_irrefl 0)
  | cons id rest ih =>
    intro acc hacc
    by_cases hbig : (acc ++ fixtureItems ex id).length > 1000
    · refine ⟨1, by simp, ?_, ?_, ?_⟩
      · simp only [genGo]
        rw [if_pos hbig]
        simp [allItems]
      · intro j hj
        have hj0 : j = 0 := by omega
        subst hj0
        simpa [allItems] using hacc
      · intro _
        simpa [allItems] using hbig
    · push_neg at hbig
      obtain ⟨k, hk, hgen, hpre, hstop⟩ := ih (acc ++ fixtureItems ex id) hbig
      refine ⟨k + 1, by simp; omega, ?_, ?_, ?_⟩
      · simp only [genGo]
        rw [if_neg (by omega)]
        rw [hgen]
        simp [allItems, List.append_assoc]
      · intro j hj
        cases j with
        | zero => simpa [allItems] using hacc
        | succ j' =>
          have hj' : j' < k := by omega
          have := hpre j' hj'
          simpa [allItems, List.append_assoc] using this
      · intro hlt
        have := hstop (by simpa using Nat.lt_of_succ_lt_succ hlt)
        simpa [allItems, List.append_assoc] using this

/-- Every generated item comes from some fixture id of the processed list. -/
theorem allItems_mem (ex : String → Bool) (l : List Nat) (it : UrlInfo)
    (h : it ∈ allItems ex l) : ∃ id ∈ l, it ∈ fixtureItems ex id := by
  induction l with
  | nil => simp [allItems] at h
  | cons id rest ih =>
    simp only [allItems, List.mem_append] at h
    rcases h with h | h
    · exact ⟨id, by simp, h⟩
    · obtain ⟨id', hid', hit⟩ := ih h
      exact ⟨id', by simp [hid'], hit⟩

/-- An item generated for a fixture is either its scorecard request, only
present when the scorecard file is absent, or one of its four innings
requests, only present when that innings file is absent. -/
theorem fixtureItems_mem (ex : String → Bool) (id : Nat) (it : UrlInfo)
    (h : it ∈ fixtureItems ex id) :
    (it = ⟨scorecardUrl id, id, "scorecard"⟩ ∧
      ex (scorecardPath id) = false) ∨
    (∃ n ∈ [1, 2, 3, 4],
      it = ⟨commentsUrl id n, id, "inning" ++ toString n⟩ ∧
      ex (inningPath id n) = false) := by
  unfold fixtureItems at h
  rw [List.mem_append] at h
  rcases h with h | h
  · left
    by_cases hex : ex (scorecardPath id) = true
    · rw [if_pos hex] at h
      simp at h
    · rw [if_neg hex] at h
      simp only [List.mem_singleton] at h
      exact ⟨h, by simpa using hex⟩
  · right
    rw [List.mem_filterMap] at h
    obtain ⟨n, hn, hsome⟩ := h
    by_cases hex : ex (inningPath id n) = true
    · rw [if_pos hex] at hsome
      simp at hsome
    · rw [if_neg hex] at hsome
      simp only [Option.some.injEq] at hsome
      exact ⟨n, hn, hsome.symm, by simpa using hex⟩

/-- C9: url generation walks the frontier in descending id order, emits
for each processed fixture exactly the scorecard and innings-1..4
requests whose output files are absent, and stops at the first fixture
after which the accumulated item count exceeds the 1000-item cap, leaving
the remaining frontier untouched. -/
theorem C9_workgen (ex : String → Bool) (ids : List Nat) :
    List.Sorted (fun a b : Nat => a ≥ b) (sortDesc ids) ∧
    (∃ k, k ≤ (sortDesc ids).length ∧
      generate_urls ex ids = allItems ex ((sortDesc ids).take k) ∧
      (∀ j < k, (allItems ex ((sortDesc ids).take j)).length ≤ 1000) ∧
      (k < (sortDesc ids).length →
        1000 < (allItems ex ((sortDesc ids).take k)).length)) ∧
    (∀ it ∈ generate_urls ex ids,
      (it = ⟨scorecardUrl it.fixture_id, it.fixture_id, "scorecard"⟩ ∧
        ex (scorecardPath it.fixture_id) = false) ∨
      (∃ n ∈ [1, 2, 3, 4],
        it = ⟨commentsUrl it.fixture_id n, it.fixture_id,
          "inning" ++ toString n⟩ ∧
        ex (inningPath it.fixture_id n) = false)) := by
  obtain ⟨k, hk, hgen, hpre, hstop⟩ := genGo_spec ex (sortDesc ids) [] (by simp)
  have hgen' : generate_urls ex ids = allItems ex ((sortDesc ids).take k) := by
    unfold generate_urls
    simpa using hgen
  refine ⟨List.sorted_insertionSort _ ids, ⟨k, hk, hgen', ?_, ?_⟩, ?_⟩
  · intro j hj
    simpa using hpre j hj
  · intro h
    simpa using hstop h
  · intro it hit
    rw [hgen'] at hit
    obtain ⟨id, hid, hitf⟩ := allItems_mem ex _ it hit
    rcases fixtureItems_mem ex id it hitf with ⟨heq, hex⟩ | ⟨n, hn, heq, hex⟩
    · subst heq
      exact Or.inl ⟨rfl, hex⟩
    · subst heq
      exact Or.inr ⟨n, hn, rfl, hex⟩

/-- Witness for C9 at a concrete frontier with no existing files. -/
theorem C9_workgen_witness :
    List.Sorted (fun a b : Nat => a ≥ b) (sortDesc [3, 7]) ∧
    (∃ k, k ≤ (sortDesc [3, 7]).length ∧
      generate_urls (fun _ => false) [3, 7]
        = allItems (fun _ => false) ((sortDesc [3, 7]).take k) ∧
      (∀ j < k,
        (allItems (fun _ => false) ((sortDesc [3, 7]).take j)).length ≤ 1000) ∧
      (k < (sortDesc [3, 7]).length →
        1000 < (allItems (fun _ => false) ((sortDesc [3, 7]).take k)).length)) ∧
    (∀ it ∈ generate_urls (fun _ => false) [3, 7],
      (it = ⟨scorecardUrl it.fixture_id, it.fixture_id, "scorecard"⟩ ∧
        (fun _ : String => false) (scorecardPath it.fixture_id) = false) ∨
      (∃ n ∈ [1, 2, 3, 4],
        it = ⟨commentsUrl it.fixture_id n, it.fixture_id,
          "inning" ++ toString n⟩ ∧
        (fun _ : String => false) (inningPath it.fixture_id n) = false)) :=
  C9_workgen (fun _ => false) [3, 7]

end CricketData
